import Mathlib

/-!
Verification development for the cvrp-project waste-collection routing core.

The Python source is shallowly embedded:
  * floats are modelled as rationals (ℚ); the haversine `calculate_distance`
    of src/utils.py is transcendental, so state-passing code that calls it
    takes an abstract distance function `dist : Coord → Coord → ℚ` as a
    parameter, and the haversine itself is modelled separately over ℝ;
  * Python dicts are association lists in insertion order (`dictGet`,
    `dictSet`), Python sets of strings are lists without duplicates;
  * fallible code (list.pop / list.remove raising) returns Option, `none`
    standing for a raised exception;
  * `datetime.now()` timestamps are omitted (an external clock read that no
    other code inspects).
-/

unseal Rat.add Rat.sub Rat.mul Rat.inv

/-- Coordinates `(lat, lon)`; Python tuples of floats. -/
abbrev Coord := ℚ × ℚ

/-- Location from src/src/models/shared_models.py (pydantic model). -/
structure Location where
  id : String
  name : String
  coordinates : Coord
  wco_amount : ℚ
  disposal_schedule : Nat
  distance_from_depot : ℚ
deriving DecidableEq

/-- Vehicle from src/src/models/shared_models.py.  Vehicle ids are strings in
the dataclass but are used as integer keys by the trip ledger; they are
modelled as Nat. -/
structure Vehicle where
  id : Nat
  capacity : ℚ
  depot_location : Coord
deriving DecidableEq

/-- Vehicle.get_remaining_capacity. -/
def Vehicle.get_remaining_capacity (v : Vehicle) (current_load : ℚ) : ℚ :=
  v.capacity - current_load

/-- Vehicle.needs_depot_return. -/
def Vehicle.needs_depot_return (v : Vehicle) (current_load next_collection_amount : ℚ) : Bool :=
  decide (v.get_remaining_capacity current_load < next_collection_amount)

/-- Lookup in a Python dict modelled as an association list. -/
def dictGet {α β : Type} [DecidableEq α] : List (α × β) → α → Option β
  | [], _ => none
  | p :: rest, k => if p.1 = k then some p.2 else dictGet rest k

/-- Python `d[k] = v`: overwrite in place, or append a new key at the end
(insertion order preserved, as CPython dicts do). -/
def dictSet {α β : Type} [DecidableEq α] : List (α × β) → α → β → List (α × β)
  | [], k, v => [(k, v)]
  | p :: rest, k, v => if p.1 = k then (k, v) :: rest else p :: dictSet rest k v

/-- Python `defaultdict(list); d[k].append(v)`. -/
def defaultdictAppend {α β : Type} [DecidableEq α] : List (α × List β) → α → β → List (α × List β)
  | [], k, v => [(k, [v])]
  | p :: rest, k, v =>
    if p.1 = k then (p.1, p.2 ++ [v]) :: rest else p :: defaultdictAppend rest k v

/-- Python `int(q)`: truncation toward zero. -/
def pyTrunc (q : ℚ) : Int := Int.tdiv q.num (Int.ofNat q.den)

/-- Constant from src/src/utils.py. -/
def AVERAGE_SPEED_KPH : ℚ := 30

/-- Constant from src/src/utils.py: 7 * 60 minutes. -/
def MAX_DAILY_TIME : ℚ := 7 * 60

/-- estimate_collection_time from src/src/utils.py: the volume-scaled formula
is commented out in the source; the cap is returned unchanged. -/
def estimate_collection_time (_location : Location) (max_stop_time : ℚ) : ℚ :=
  max_stop_time

/-- estimate_travel_time from src/src/utils.py (minutes). -/
def estimate_travel_time (distance : ℚ) (speed_kph : ℚ) : ℚ :=
  distance / speed_kph * 60

/-- calculate_stop_times from src/src/utils.py, over the abstract distance
function.  Returns (collection_time, travel_time, depot_return_time) in
minutes.  The register_collection call path never passes distance_from_prev,
still modelled for fidelity. -/
def calculate_stop_times (dist : Coord → Coord → ℚ) (location : Location)
    (depot_location : Option Coord) (prev_location : Option Coord)
    (collection_time_minutes : ℚ) (speed_kph : ℚ)
    (distance_from_prev : Option ℚ) : ℚ × ℚ × ℚ :=
  let collection_time := estimate_collection_time location collection_time_minutes
  let travel_time : ℚ :=
    match distance_from_prev with
    | some dfp => estimate_travel_time dfp speed_kph
    | none =>
      match prev_location with
      | some prev => estimate_travel_time (dist prev location.coordinates) speed_kph
      | none =>
        match depot_location with
        | some dep => estimate_travel_time (dist dep location.coordinates) speed_kph
        | none => 0
  let depot_return_time : ℚ :=
    match depot_location with
    | some dep => estimate_travel_time (dist location.coordinates dep) speed_kph
    | none => 0
  (collection_time, travel_time, depot_return_time)

/-- calculate_total_time from src/src/utils.py. -/
def calculate_total_time (collection_time travel_time depot_return_time : ℚ) : ℚ :=
  collection_time + travel_time + depot_return_time

/-- CollectionStop from src/src/models/shared_models.py.  collection_time and
travel_time are the int() seconds the source stores. -/
structure CollectionStop where
  location_id : String
  location_name : String
  coordinates : Coord
  amount_collected : ℚ
  cumulative_load : ℚ
  remaining_capacity : ℚ
  distance_from_prev : ℚ
  trip_number : Nat
  collection_day : Nat
  collection_time : Int
  travel_time : Int
deriving DecidableEq

/-- CollectionData from src/src/models/shared_models.py (collection_timestamp
omitted: a clock read never inspected by the core).  visited_location_ids is
a Python set of strings, modelled as a duplicate-free list. -/
structure CollectionData where
  vehicle_id : Nat
  day : Nat
  trip_number : Nat
  visited_location_ids : List String
  total_collected : ℚ
  total_distance : ℚ
  stops : List CollectionStop
  collection_time_minutes : ℚ
  speed_kph : ℚ
deriving DecidableEq

/-- CollectionData.add_stop from src/src/models/shared_models.py. -/
def CollectionData.add_stop (c : CollectionData) (location : Location)
    (distance_from_prev : ℚ) : CollectionData :=
  let current_load := (c.stops.map (fun s => s.amount_collected)).sum
  let collection_time := pyTrunc (c.collection_time_minutes * 60)
  let travel_time := pyTrunc (distance_from_prev / c.speed_kph * 3600)
  let new_stop : CollectionStop :=
    { location_id := location.id
      location_name := location.name
      coordinates := location.coordinates
      amount_collected := location.wco_amount
      cumulative_load := current_load + location.wco_amount
      remaining_capacity := 0
      distance_from_prev := distance_from_prev
      trip_number := c.trip_number
      collection_day := c.day
      collection_time := collection_time
      travel_time := travel_time }
  { c with
    stops := c.stops ++ [new_stop]
    visited_location_ids :=
      if location.id ∈ c.visited_location_ids then c.visited_location_ids
      else c.visited_location_ids ++ [location.id]
    total_collected := c.total_collected + location.wco_amount
    total_distance := c.total_distance + distance_from_prev }

/-- TripCollection from src/src/models/trip_collection.py.  The trailing
underscore field name mirrors the source's `_exceeds_daily_time`. -/
structure TripCollection where
  vehicle_collections : List ((Nat × Nat × Nat) × CollectionData)
  total_times : List (Nat × ℚ)
  _exceeds_daily_time : List (Nat × Bool)
  total_trips : Nat
  total_stops : Nat
  speed_kph : ℚ
  max_daily_time : ℚ
deriving DecidableEq

/-- A fresh ledger, as the dataclass default factories build it. -/
def TripCollection.init (speed_kph max_daily_time : ℚ) : TripCollection :=
  { vehicle_collections := []
    total_times := []
    _exceeds_daily_time := []
    total_trips := 0
    total_stops := 0
    speed_kph := speed_kph
    max_daily_time := max_daily_time }

/-- TripCollection.exceeds_daily_time. -/
def TripCollection.exceeds_daily_time (tc : TripCollection) (day : Nat) : Bool :=
  match dictGet tc._exceeds_daily_time day with
  | some b => b
  | none => false

/-- TripCollection.clear_total_time. -/
def TripCollection.clear_total_time (tc : TripCollection) (day : Nat) : TripCollection :=
  let tt := match dictGet tc.total_times day with
    | some _ => dictSet tc.total_times day 0
    | none => tc.total_times
  let fl := match dictGet tc._exceeds_daily_time day with
    | some _ => dictSet tc._exceeds_daily_time day false
    | none => tc._exceeds_daily_time
  { tc with total_times := tt, _exceeds_daily_time := fl }

/-- The CollectionData register_collection creates for an unseen key. -/
def newCollectionData (vehicle_id day trip_number : Nat)
    (collection_time_minutes speed_kph : ℚ) : CollectionData :=
  { vehicle_id := vehicle_id
    day := day
    trip_number := trip_number
    visited_location_ids := []
    total_collected := 0
    total_distance := 0
    stops := []
    collection_time_minutes := collection_time_minutes
    speed_kph := speed_kph }

/-- register_collection lines 56-73: the two `if key not in ...` blocks that
bump total_trips and create the CollectionData (one combined test: the source
evaluates the same unchanged condition twice). -/
def TripCollection.ensure_key (tc : TripCollection) (key : Nat × Nat × Nat)
    (collection_time_minutes : ℚ) : TripCollection :=
  match dictGet tc.vehicle_collections key with
  | some _ => tc
  | none =>
    { tc with
      total_trips := tc.total_trips + 1
      vehicle_collections :=
        dictSet tc.vehicle_collections key
          (newCollectionData key.1 key.2.1 key.2.2 collection_time_minutes tc.speed_kph) }

/-- register_collection lines 75-76: seed total_times[day] with 0.0. -/
def TripCollection.ensure_time (tc : TripCollection) (day : Nat) : TripCollection :=
  match dictGet tc.total_times day with
  | some _ => tc
  | none => { tc with total_times := dictSet tc.total_times day 0 }

/-- register_collection lines 79-120, after the key and the day's time entry
exist and `collection` has been fetched. -/
def TripCollection.register_core (tc : TripCollection) (dist : Coord → Coord → ℚ)
    (key : Nat × Nat × Nat) (collection : CollectionData) (location : Location)
    (depot_location : Option Coord) (collection_time_minutes : ℚ) :
    TripCollection × Bool :=
  if location.id ∈ collection.visited_location_ids then (tc, false)
  else
    let is_depot_location : Bool :=
      match depot_location with
      | some dep => decide (location.coordinates = dep)
      | none => false
    let distance : ℚ :=
      match collection.stops.getLast? with
      | some prev_stop => dist prev_stop.coordinates location.coordinates
      | none =>
        match depot_location with
        | some dep => if is_depot_location then 0 else dist dep location.coordinates
        | none => 0
    let prev_location := collection.stops.getLast?.map (fun s => s.coordinates)
    let times := calculate_stop_times dist location depot_location prev_location
      collection_time_minutes tc.speed_kph none
    let prev_total_time := (dictGet tc.total_times key.2.1).getD 0
    let total_time := prev_total_time + calculate_total_time times.1 times.2.1 times.2.2
    -- line 110 of the source assigns False here (not True), faithfully kept
    let tc1 :=
      if tc.max_daily_time < total_time then
        { tc with _exceeds_daily_time := dictSet tc._exceeds_daily_time key.2.1 false }
      else tc
    ({ tc1 with
        vehicle_collections :=
          dictSet tc1.vehicle_collections key (collection.add_stop location distance)
        total_stops := tc1.total_stops + 1 }, true)

/-- TripCollection.register_collection from src/src/models/trip_collection.py.
`dist` abstracts the global calculate_distance. -/
def TripCollection.register_collection (tc : TripCollection) (dist : Coord → Coord → ℚ)
    (vehicle_id day trip_number : Nat) (location : Location)
    (depot_location : Option Coord) (collection_time_minutes : ℚ) :
    TripCollection × Bool :=
  let key := (vehicle_id, day, trip_number)
  if tc.exceeds_daily_time day then (tc, false)
  else
    let tc1 := tc.ensure_key key collection_time_minutes
    let tc2 := tc1.ensure_time day
    match dictGet tc2.vehicle_collections key with
    | none => (tc2, false)  -- unreachable: ensure_key has inserted the key
    | some collection =>
      tc2.register_core dist key collection location depot_location collection_time_minutes

/-- The ledger states reachable from a fresh TripCollection by any sequence of
register_collection and clear_total_time calls, for any distance function. -/
inductive TripCollection.Reachable : TripCollection → Prop where
  | init (speed_kph max_daily_time : ℚ) :
      TripCollection.Reachable (TripCollection.init speed_kph max_daily_time)
  | register (tc : TripCollection) (dist : Coord → Coord → ℚ)
      (vehicle_id day trip_number : Nat) (location : Location)
      (depot_location : Option Coord) (collection_time_minutes : ℚ) :
      TripCollection.Reachable tc →
      TripCollection.Reachable
        (tc.register_collection dist vehicle_id day trip_number location
          depot_location collection_time_minutes).1
  | clear (tc : TripCollection) (day : Nat) :
      TripCollection.Reachable tc →
      TripCollection.Reachable (tc.clear_total_time day)

/-- Running prefix totals: runningLoads acc [a, b, c] = [acc+a, acc+a+b, acc+a+b+c]. -/
def runningLoads : ℚ → List ℚ → List ℚ
  | _, [] => []
  | acc, x :: xs => (acc + x) :: runningLoads (acc + x) xs

/-- Per-CollectionData shape of the amended C1 invariant: each stop's
cumulative_load is the prefix sum of amount_collected within the trip. -/
def cumOk : Option CollectionData → Prop
  | none => True
  | some c =>
    c.stops.map (fun s => s.cumulative_load) =
      runningLoads 0 (c.stops.map (fun s => s.amount_collected))

/-- Per-CollectionData shape of the amended C3 invariant: within one
CollectionData no location id repeats, and visited_location_ids matches the
stops. -/
def visitOk : Option CollectionData → Prop
  | none => True
  | some c =>
    (c.stops.map (fun s => s.location_id)).Nodup ∧
      ∀ i : String, i ∈ c.visited_location_ids ↔ i ∈ c.stops.map (fun s => s.location_id)

/-- Internal consistency of a ledger state: every registered key's day has a
total_times entry, and every CollectionData satisfies cumOk and visitOk. -/
def TripCollection.Inv (tc : TripCollection) : Prop :=
  (∀ k : Nat × Nat × Nat,
      (dictGet tc.vehicle_collections k).isSome = true →
      (dictGet tc.total_times k.2.1).isSome = true) ∧
    (∀ k : Nat × Nat × Nat, cumOk (dictGet tc.vehicle_collections k)) ∧
    (∀ k : Nat × Nat × Nat, visitOk (dictGet tc.vehicle_collections k))

/-- Python `list.index(v)`: position of the first occurrence, none for the
raised ValueError. -/
def pyIndex {α : Type} [DecidableEq α] : List α → α → Option Nat
  | [], _ => none
  | x :: rest, v => if x = v then some 0 else (pyIndex rest v).map (fun i => i + 1)

/-- Python `list.pop(i)`: the removed element and the remaining list, none for
the raised IndexError. -/
def popIdx {α : Type} (l : List α) (i : Nat) : Option (α × List α) :=
  match l.get? i with
  | none => none
  | some x => some (x, l.eraseIdx i)

/-- Python `list.remove(v)`: drop the first occurrence, none for the raised
ValueError. -/
def listRemoveVal {α : Type} [DecidableEq α] : List α → α → Option (List α)
  | [], _ => none
  | x :: rest, v => if x = v then some rest else (listRemoveVal rest v).map (fun t => x :: t)

/-- Python `del d[k]` on a dict modelled as an association list. -/
def dictDelete {α β : Type} [DecidableEq α] : List (α × β) → α → List (α × β)
  | [], _ => []
  | p :: rest, k => if p.1 = k then rest else p :: dictDelete rest k

/-- Insertion step of the sort used to model Python `list.sort()` on Nat. -/
def insertNat (x : Nat) : List Nat → List Nat
  | [] => [x]
  | y :: ys => if x ≤ y then x :: y :: ys else y :: insertNat x ys

/-- Python `list.sort()` on a list of Nat. -/
def sortNat (l : List Nat) : List Nat := l.foldr insertNat []

/-- LocationRegistry from src/src/models/location_registry.py. -/
structure LocationRegistry where
  _all_locations : List Location
  _location_ids : List String
  _coordinates_map : List (Coord × List String)
  _location_names : List String
  _name_indices : List (String × List Nat)
deriving DecidableEq

/-- A registry as `LocationRegistry()` constructs it. -/
def LocationRegistry.empty : LocationRegistry :=
  { _all_locations := []
    _location_ids := []
    _coordinates_map := []
    _location_names := []
    _name_indices := [] }

/-- LocationRegistry.add. -/
def LocationRegistry.add (r : LocationRegistry) (location : Location) : LocationRegistry :=
  if location.id ∈ r._location_ids then r
  else
    let index := r._all_locations.length
    { _all_locations := r._all_locations ++ [location]
      _location_ids := r._location_ids ++ [location.id]
      _coordinates_map := defaultdictAppend r._coordinates_map location.coordinates location.id
      _location_names := r._location_names ++ [location.name]
      _name_indices := defaultdictAppend r._name_indices location.name index }

/-- LocationRegistry._update_indices: shift every name index past the removed
position down by one, then keep each list sorted. -/
def LocationRegistry._update_indices (ni : List (String × List Nat))
    (removed_index : Nat) : List (String × List Nat) :=
  ni.map (fun p => (p.1, sortNat (p.2.map (fun idx => if removed_index < idx then idx - 1 else idx))))

/-- LocationRegistry.remove.  The source pops `_location_names` twice (lines
49-50); both pops are modelled.  `none` is a raised IndexError / ValueError. -/
def LocationRegistry.remove (r : LocationRegistry) (location : Location) :
    Option LocationRegistry :=
  match pyIndex r._location_ids location.id with
  | none => some r  -- except ValueError: return
  | some index =>
    match popIdx r._all_locations index with
    | none => none
    | some (_, all1) =>
      match popIdx r._location_ids index with
      | none => none
      | some (_, ids1) =>
        match popIdx r._location_names index with
        | none => none
        | some (_, names1) =>
          match popIdx names1 index with
          | none => none
          | some (name, names2) =>
            match listRemoveVal ((dictGet r._name_indices name).getD []) index with
            | none => none  -- list.remove raises ValueError
            | some newlist =>
              let ni1 :=
                if newlist = [] then dictDelete (dictSet r._name_indices name newlist) name
                else dictSet r._name_indices name newlist
              some
                { _all_locations := all1
                  _location_ids := ids1
                  _coordinates_map := r._coordinates_map
                  _location_names := names2
                  _name_indices := LocationRegistry._update_indices ni1 index }

/-- LocationRegistry.get_by_id (indexing after a successful `.index` cannot
fail, hence the total lookup). -/
def LocationRegistry.get_by_id (r : LocationRegistry) (location_id : String) :
    Option Location :=
  match pyIndex r._location_ids location_id with
  | none => none
  | some index => r._all_locations.get? index

/-- LocationRegistry.get_by_name; out-of-range indexes (impossible in
consistent states) are skipped. -/
def LocationRegistry.get_by_name (r : LocationRegistry) (name : String) : List Location :=
  ((dictGet r._name_indices name).getD []).filterMap (fun i => r._all_locations.get? i)

/-- Scheduler constant MAX_STOP_TIME (src/src/scheduling/collection_scheduler.py,
also the clusterer's max_time_per_stop as the scheduler constructs it). -/
def MAX_STOP_TIME : ℚ := 15

/-- GeographicClusterer.estimate_collection_time: the volume formula is
commented out; returns max_time_per_stop. -/
def GeographicClusterer.estimate_collection_time (max_time_per_stop : ℚ)
    (_location : Location) : ℚ :=
  max_time_per_stop

/-- State threaded through the second assignment pass of
CollectionScheduler.optimize_vehicle_assignments (lines 235-263). -/
structure AssignState where
  assignments : List (List Location)
  vehicle_loads : List ℚ
  vehicle_times : List ℚ
  visited_locations : List (String × Nat)
  still_unassigned : List Location
deriving DecidableEq

/-- Index of the first vehicle that can take the location: capacity and
remaining daily time both suffice (the inner for-loop of the second pass). -/
def findFirstFit (loads times : List ℚ) (wco est maxDaily : ℚ) :
    List Vehicle → Nat → Option Nat
  | [], _ => none
  | v :: rest, i =>
    if loads.getD i 0 + wco ≤ v.capacity ∧ times.getD i 0 + est ≤ maxDaily then some i
    else findFirstFit loads times wco est maxDaily rest (i + 1)

/-- One location of the second pass: skip if already assigned, else append to
the first fitting vehicle, else record as still unassigned. -/
def secondPassStep (vehicles : List Vehicle) (maxStop maxDaily : ℚ)
    (s : AssignState) (location : Location) : AssignState :=
  if (dictGet s.visited_locations location.id).isSome then s
  else
    let est := GeographicClusterer.estimate_collection_time maxStop location
    match findFirstFit s.vehicle_loads s.vehicle_times location.wco_amount est maxDaily vehicles 0 with
    | some i =>
      { s with
        assignments := s.assignments.set i (s.assignments.getD i [] ++ [location])
        vehicle_loads := s.vehicle_loads.set i (s.vehicle_loads.getD i 0 + location.wco_amount)
        vehicle_times := s.vehicle_times.set i (s.vehicle_times.getD i 0 + est)
        visited_locations := dictSet s.visited_locations location.id i }
    | none => { s with still_unassigned := s.still_unassigned ++ [location] }

/-- Stable insertion for the descending-wco sort of the second pass. -/
def insertByWco (x : Location) : List Location → List Location
  | [] => [x]
  | y :: ys => if y.wco_amount < x.wco_amount then x :: y :: ys else y :: insertByWco x ys

/-- Python `unassigned_locations.sort(key=lambda x: -x.wco_amount)`: stable,
descending by wco_amount. -/
def sortByWcoDesc : List Location → List Location
  | [] => []
  | x :: xs => insertByWco x (sortByWcoDesc xs)

/-- The second pass of optimize_vehicle_assignments (source lines 235-263).
In the source it runs whenever unassigned_locations is non-empty; the
function has no force_assign parameter. -/
def secondPass (vehicles : List Vehicle) (maxStop maxDaily : ℚ)
    (s : AssignState) (unassigned_locations : List Location) : AssignState :=
  (sortByWcoDesc unassigned_locations).foldl (secondPassStep vehicles maxStop maxDaily) s

/-- The trailing depot marker of a route: `if route[-1] is not None:
route.append(None)`. -/
def closeRoute (route : List (Option Location)) : List (Option Location) :=
  match route.getLast? with
  | some none => route
  | _ => route ++ [none]

/-- The scan of GreedySolver._build_route's inner for-loop: the first index
(and location) of minimal distance among the locations that fit the remaining
capacity.  The left-to-right scan with a strict `<` update of the source
keeps the earliest minimal element, which this right recursion mirrors by
letting the head win ties. -/
def findBest (dist : Coord → Coord → ℚ) (remaining_capacity : ℚ) (current_pos : Coord) :
    List Location → Option (Nat × Location)
  | [] => none
  | loc :: rest =>
    let rb := findBest dist remaining_capacity current_pos rest
    if remaining_capacity < loc.wco_amount then rb.map (fun p => (p.1 + 1, p.2))
    else
      match rb with
      | none => some (0, loc)
      | some (j, bl) =>
        if dist current_pos loc.coordinates ≤ dist current_pos bl.coordinates then some (0, loc)
        else some (j + 1, bl)

/-- The while-loop of GreedySolver._build_route, fuel-indexed; `none` stands
for fuel running out (the source loop does not terminate when some location
exceeds a full vehicle's capacity). -/
def buildRouteLoop (dist : Coord → Coord → ℚ) (capacity : ℚ) (depot : Coord) :
    Nat → List Location → ℚ → Coord → List (Option Location) → Option (List (Option Location))
  | 0, available, _, _, route => if available = [] then some (closeRoute route) else none
  | fuel + 1, available, remaining_capacity, current_pos, route =>
    if available = [] then some (closeRoute route)
    else
      match findBest dist remaining_capacity current_pos available with
      | none => buildRouteLoop dist capacity depot fuel available capacity depot (route ++ [none])
      | some (i, best_location) =>
        let route1 := route ++ [some best_location]
        let rem1 := remaining_capacity - best_location.wco_amount
        let avail1 := available.eraseIdx i
        if rem1 < 100 then
          buildRouteLoop dist capacity depot fuel avail1 capacity depot (route1 ++ [none])
        else
          buildRouteLoop dist capacity depot fuel avail1 rem1 best_location.coordinates route1

/-- GreedySolver._build_route.  The heapq list holds (priority, index) pairs
that the loop dereferences immediately; it is modelled as the list of the
locations themselves.  Its internal heap layout only fixes the scan order,
which every theorem below quantifies over. -/
def GreedySolver._build_route (dist : Coord → Coord → ℚ) (capacity : ℚ) (depot : Coord)
    (available : List Location) : Option (List (Option Location)) :=
  buildRouteLoop dist capacity depot (2 * available.length + 1) available capacity depot
    [none]

/-- Python list building where a non-terminating element aborts the whole
computation. -/
def listMapOption {α β : Type} (f : α → Option β) : List α → Option (List β)
  | [] => some []
  | x :: xs =>
    match f x, listMapOption f xs with
    | some y, some ys => some (y :: ys)
    | _, _ => none

/-- GreedySolver.solve: one _build_route per vehicle, each over a fresh copy
of the full priority list. -/
def GreedySolver.solve (dist : Coord → Coord → ℚ) (locations : List Location)
    (vehicles : List Vehicle) (depot : Coord) : Option (List (List (Option Location))) :=
  listMapOption (fun v => GreedySolver._build_route dist v.capacity depot locations) vehicles

/-- The per-location mutable state of NearestNeighborSolver.solve's scanning
for-loop (route, current_load, current_pos are the loop's real variables, the
scan can insert depot markers while searching). -/
structure NNScanState where
  route : List (Option Location)
  current_load : ℚ
  current_pos : Coord
  best : Option (Location × ℚ)
deriving DecidableEq

/-- One scanned location of NearestNeighborSolver.solve's inner for-loop. -/
def nnScanStep (dist : Coord → Coord → ℚ) (capacity : ℚ) (depot : Coord)
    (s : NNScanState) (location : Location) : NNScanState :=
  let s1 :=
    if capacity < s.current_load + location.wco_amount then
      if s.current_pos ≠ depot then
        { s with route := s.route ++ [none], current_load := 0, current_pos := depot }
      else s
    else s
  let d := dist s1.current_pos location.coordinates
  let best1 :=
    match s1.best with
    | none => some (location, d)
    | some (b, bd) => if d < bd then some (location, d) else some (b, bd)
  { s1 with best := best1 }

/-- The while-loop of NearestNeighborSolver.solve, fuel-indexed (one removal
per iteration; remaining_locs is a Python set of indices whose iteration
order is modelled as the list order). -/
def nnLoop (dist : Coord → Coord → ℚ) (capacity : ℚ) (depot : Coord) :
    Nat → List Location → List (Option Location) → ℚ → Coord → List (Option Location)
  | 0, _, route, _, _ => route
  | fuel + 1, remaining, route, current_load, current_pos =>
    if remaining = [] then route
    else
      let s := remaining.foldl (nnScanStep dist capacity depot)
        { route := route, current_load := current_load, current_pos := current_pos,
          best := none }
      match s.best with
      | none => s.route
      | some (best_loc, _) =>
        let route1 := s.route ++ [some best_loc]
        let load1 := s.current_load + best_loc.wco_amount
        let remaining1 := remaining.erase best_loc
        if (9 / 10) * capacity ≤ load1 then
          nnLoop dist capacity depot fuel remaining1 (route1 ++ [none]) 0 depot
        else
          nnLoop dist capacity depot fuel remaining1 route1 load1 best_loc.coordinates

/-- NearestNeighborSolver.solve.  The sorted_locations ordering is computed
by the source but only its index *set* is kept, so the remaining set is the
input list itself. -/
def NearestNeighborSolver.solve (dist : Coord → Coord → ℚ) (locations : List Location)
    (vehicles : List Vehicle) (depot : Coord) : List (List (Option Location)) :=
  vehicles.map (fun v =>
    closeRoute (nnLoop dist v.capacity depot (locations.length + 1) locations [none] 0 depot))

/-- BasicSolver.solve: the input sandwiched by depot markers, one copy per
vehicle. -/
def BasicSolver.solve (locations : List Location) (vehicles : List Vehicle) :
    List (List (Option Location)) :=
  let final_routes := [none] ++ locations.map some ++ [none]
  vehicles.map (fun _ => final_routes)

/-- ORToolsSolver._process_solution.  The external solver's walk is abstracted
as, per vehicle, either `none` (IsVehicleUsed false: append an empty route) or
the list of visited node indices, each a valid index into `self.locations` as
manager.IndexToNode guarantees; node 0 (the depot) is skipped. -/
def ORToolsSolver._process_solution (locations : List Location)
    (sol : List (Option (List (Fin locations.length)))) : List (List (Option Location)) :=
  sol.foldr
    (fun vnodes acc =>
      match vnodes with
      | none => [] :: acc
      | some nodes =>
        let route := [none] ++ (nodes.filter (fun n => n.val != 0)).map
          (fun n => some (locations.get n)) ++ [none]
        if 2 < route.length then route :: acc else acc)
    []

/-- The non-depot locations of a route list. -/
def routeLocs (route : List (Option Location)) : List Location := route.filterMap id

/-- The ids of all non-depot locations a solver returned. -/
def solverOutputIds (routes : List (List (Option Location))) : List String :=
  (routes.map (fun r => (routeLocs r).map (fun l => l.id))).flatten

/-- math.radians. -/
noncomputable def radians (x : ℝ) : ℝ := x * (Real.pi / 180)

/-- math.atan2(y, x), branch structure of the C library function (the code
only ever calls it with non-negative arguments). -/
noncomputable def atan2 (y x : ℝ) : ℝ :=
  if 0 < x then Real.arctan (y / x)
  else if x < 0 then
    (if 0 ≤ y then Real.arctan (y / x) + Real.pi else Real.arctan (y / x) - Real.pi)
  else if 0 < y then Real.pi / 2
  else if y < 0 then -(Real.pi / 2)
  else 0

/-- calculate_distance from src/src/utils.py: haversine over ℝ (the floats of
the source are modelled as exact reals). -/
noncomputable def calculate_distance (coord1 coord2 : ℝ × ℝ) : ℝ :=
  let lat1 := radians coord1.1
  let lon1 := radians coord1.2
  let lat2 := radians coord2.1
  let lon2 := radians coord2.2
  let dlat := lat2 - lat1
  let dlon := lon2 - lon1
  let a := Real.sin (dlat / 2) ^ 2 + Real.cos lat1 * Real.cos lat2 * Real.sin (dlon / 2) ^ 2
  let c := 2 * atan2 (Real.sqrt a) (Real.sqrt (1 - a))
  6371 * c

/-- Distance function used by the concrete examples (its value is irrelevant
to each example: either no depot is passed or only control flow matters). -/
def dist0 : Coord → Coord → ℚ := fun _ _ => 0

/-- Example location A: 80 L of WCO. -/
def locA : Location :=
  { id := "A", name := "A", coordinates := (0, 1), wco_amount := 80,
    disposal_schedule := 1, distance_from_depot := 0 }

/-- Example location B: 80 L of WCO. -/
def locB : Location :=
  { id := "B", name := "B", coordinates := (1, 0), wco_amount := 80,
    disposal_schedule := 1, distance_from_depot := 0 }

/-- Example vehicle: capacity 100 L. -/
def vehicleEx : Vehicle := { id := 0, capacity := 100, depot_location := (0, 0) }

/-- A fresh ledger with the default speed and daily cap. -/
def exTC0 : TripCollection := TripCollection.init AVERAGE_SPEED_KPH MAX_DAILY_TIME

/-- Ledger after registering A for vehicle 0, day 1, trip 0. -/
def exTC1 : TripCollection :=
  (exTC0.register_collection dist0 0 1 0 locA none 15).1

/-- Ledger after additionally registering B for the same key. -/
def exTC2 : TripCollection :=
  (exTC1.register_collection dist0 0 1 0 locB none 15).1

/-- Ledger after additionally registering A again on day 1, trip 1. -/
def exTC3 : TripCollection :=
  (exTC1.register_collection dist0 0 1 1 locA none 15).1

/-- The CollectionData exTC1 stores under (0, 1, 0). -/
def exCA1 : CollectionData :=
  (dictGet exTC1.vehicle_collections (0, 1, 0)).getD (newCollectionData 0 1 0 15 30)

/-- Registry holding only A. -/
def regA : LocationRegistry := LocationRegistry.empty.add locA

/-- Two distinct locations sharing one name. -/
def locN1 : Location :=
  { id := "n1", name := "N", coordinates := (0, 0), wco_amount := 1,
    disposal_schedule := 1, distance_from_depot := 0 }

/-- Second location with the shared name. -/
def locN2 : Location :=
  { id := "n2", name := "N", coordinates := (2, 2), wco_amount := 1,
    disposal_schedule := 1, distance_from_depot := 0 }

/-- Registry holding the two same-named locations. -/
def regN : LocationRegistry := (LocationRegistry.empty.add locN1).add locN2

/-- Example vehicle with a large capacity for the second-pass run. -/
def vehicleBig : Vehicle := { id := 0, capacity := 1000, depot_location := (0, 0) }

/-- A location of 10 L for the second-pass run. -/
def smallLoc (id : String) : Location :=
  { id := id, name := id, coordinates := (0, 0), wco_amount := 10,
    disposal_schedule := 1, distance_from_depot := 0 }

/-- Six still-unassigned locations: more than the force-assign threshold 5. -/
def sixLocs : List Location :=
  [smallLoc "L1", smallLoc "L2", smallLoc "L3", smallLoc "L4", smallLoc "L5", smallLoc "L6"]

/-- Assignment state after a first pass that assigned nothing. -/
def exAssign0 : AssignState :=
  { assignments := [[]], vehicle_loads := [0], vehicle_times := [0],
    visited_locations := [], still_unassigned := [] }

/-- The second pass run on the six locations. -/
def exAssignRun : AssignState :=
  secondPass [vehicleBig] MAX_STOP_TIME MAX_DAILY_TIME exAssign0 sixLocs

theorem dictGet_dictSet {α β : Type} [DecidableEq α] (l : List (α × β)) (k k2 : α) (v : β) :
    dictGet (dictSet l k v) k2 = if k = k2 then some v else dictGet l k2 := by
  induction l with
  | nil => simp [dictGet, dictSet]
  | cons p rest ih =>
    by_cases h1 : p.1 = k
    · by_cases h2 : k = k2 <;> simp [dictGet, dictSet, h1, h2]
    · by_cases h2 : p.1 = k2
      · have h3 : ¬ k = k2 := fun he => h1 (h2.trans he.symm)
        have h4 : ¬ k2 = k := fun he => h3 he.symm
        simp [dictGet, dictSet, h1, h2, h3, h4]
      · simp [dictGet, dictSet, h1, h2, ih]

theorem dictGet_dictSet_isSome {α β : Type} [DecidableEq α] (l : List (α × β)) (k k2 : α)
    (v : β) (h : (dictGet l k2).isSome = true) :
    (dictGet (dictSet l k v) k2).isSome = true := by
  rw [dictGet_dictSet]
  by_cases hk : k = k2 <;> simp [hk, h]

theorem ensure_key_total_times (tc : TripCollection) (key : Nat × Nat × Nat) (ctm : ℚ) :
    (tc.ensure_key key ctm).total_times = tc.total_times := by
  unfold TripCollection.ensure_key
  split <;> rfl

theorem ensure_key_get (tc : TripCollection) (key : Nat × Nat × Nat) (ctm : ℚ)
    (k : Nat × Nat × Nat) :
    dictGet (tc.ensure_key key ctm).vehicle_collections k = dictGet tc.vehicle_collections k ∨
      dictGet (tc.ensure_key key ctm).vehicle_collections k =
        some (newCollectionData key.1 key.2.1 key.2.2 ctm tc.speed_kph) := by
  unfold TripCollection.ensure_key
  cases h : dictGet tc.vehicle_collections key with
  | some c => left; rfl
  | none =>
    by_cases hk : key = k
    · right; simp [dictGet_dictSet, hk]
    · left; simp [dictGet_dictSet, hk]

theorem ensure_key_isSome_of (tc : TripCollection) (key : Nat × Nat × Nat) (ctm : ℚ)
    (k : Nat × Nat × Nat)
    (h : (dictGet (tc.ensure_key key ctm).vehicle_collections k).isSome = true) :
    (dictGet tc.vehicle_collections k).isSome = true ∨ k = key := by
  unfold TripCollection.ensure_key at h
  revert h
  split
  · exact fun h => Or.inl h
  · intro h
    by_cases hk : k = key
    · exact Or.inr hk
    · left
      rw [dictGet_dictSet, if_neg (fun he => hk he.symm)] at h
      exact h

theorem ensure_key_noop (tc : TripCollection) (key : Nat × Nat × Nat) (ctm : ℚ)
    (h : (dictGet tc.vehicle_collections key).isSome = true) :
    tc.ensure_key key ctm = tc := by
  unfold TripCollection.ensure_key
  split
  · rfl
  · rename_i heq
    rw [heq] at h
    simp at h

theorem ensure_time_vc (tc : TripCollection) (day : Nat) :
    (tc.ensure_time day).vehicle_collections = tc.vehicle_collections := by
  unfold TripCollection.ensure_time
  split <;> rfl

theorem ensure_time_isSome_self (tc : TripCollection) (day : Nat) :
    (dictGet (tc.ensure_time day).total_times day).isSome = true := by
  unfold TripCollection.ensure_time
  split
  · rename_i heq; simp [heq]
  · simp [dictGet_dictSet]

theorem ensure_time_isSome_mono (tc : TripCollection) (day k : Nat)
    (h : (dictGet tc.total_times k).isSome = true) :
    (dictGet (tc.ensure_time day).total_times k).isSome = true := by
  unfold TripCollection.ensure_time
  split
  · exact h
  · exact dictGet_dictSet_isSome _ _ _ _ h

theorem ensure_time_noop (tc : TripCollection) (day : Nat)
    (h : (dictGet tc.total_times day).isSome = true) :
    tc.ensure_time day = tc := by
  unfold TripCollection.ensure_time
  split
  · rfl
  · rename_i heq
    rw [heq] at h
    simp at h

theorem runningLoads_append (xs : List ℚ) (y : ℚ) : ∀ acc : ℚ,
    runningLoads acc (xs ++ [y]) = runningLoads acc xs ++ [acc + xs.sum + y] := by
  induction xs with
  | nil => intro acc; simp [runningLoads]
  | cons a as ih =>
    intro acc
    simp only [List.cons_append, List.append_eq, runningLoads, ih, List.sum_cons, add_assoc]

theorem cumOk_add_stop (c : CollectionData) (loc : Location) (d : ℚ)
    (h : cumOk (some c)) : cumOk (some (c.add_stop loc d)) := by
  simp only [cumOk] at h ⊢
  simp only [CollectionData.add_stop, List.map_append, List.map_cons, List.map_nil,
    runningLoads_append, h, zero_add]

theorem visitOk_add_stop (c : CollectionData) (loc : Location) (d : ℚ)
    (h : visitOk (some c)) (hnotin : loc.id ∉ c.visited_location_ids) :
    visitOk (some (c.add_stop loc d)) := by
  simp only [visitOk] at h ⊢
  obtain ⟨hnd, hiff⟩ := h
  have hnotin2 : loc.id ∉ c.stops.map (fun s => s.location_id) := fun hm =>
    hnotin ((hiff loc.id).2 hm)
  constructor
  · simp only [CollectionData.add_stop, List.map_append, List.map_cons, List.map_nil]
    rw [List.nodup_append]
    exact ⟨hnd, List.nodup_singleton _, by simpa [List.disjoint_singleton] using hnotin2⟩
  · intro i
    simp only [CollectionData.add_stop, hnotin, if_false, List.map_append, List.map_cons,
      List.map_nil, List.mem_append, List.mem_singleton]
    rw [hiff i]

theorem newCollectionData_cumOk (v d t : Nat) (ctm sp : ℚ) :
    cumOk (some (newCollectionData v d t ctm sp)) := by
  simp [cumOk, newCollectionData, runningLoads]

theorem newCollectionData_visitOk (v d t : Nat) (ctm sp : ℚ) :
    visitOk (some (newCollectionData v d t ctm sp)) := by
  simp [visitOk, newCollectionData]

theorem register_core_inv (tc : TripCollection) (dist : Coord → Coord → ℚ)
    (key : Nat × Nat × Nat) (coll : CollectionData) (loc : Location)
    (dep : Option Coord) (ctm : ℚ)
    (hInv : tc.Inv) (hcoll : dictGet tc.vehicle_collections key = some coll) :
    ((tc.register_core dist key coll loc dep ctm).1).Inv := by
  obtain ⟨h1, h2, h3⟩ := hInv
  unfold TripCollection.register_core
  by_cases hdup : loc.id ∈ coll.visited_location_ids
  · rw [if_pos hdup]
    exact ⟨h1, h2, h3⟩
  · rw [if_neg hdup]
    dsimp only
    split
    all_goals {
      refine ⟨fun k h => ?_, fun k => ?_, fun k => ?_⟩
      · dsimp only at h ⊢
        rw [dictGet_dictSet] at h
        by_cases hk : key = k
        · subst hk
          exact h1 key (by simp [hcoll])
        · rw [if_neg hk] at h
          exact h1 k h
      · dsimp only
        rw [dictGet_dictSet]
        by_cases hk : key = k
        · rw [if_pos hk]
          exact cumOk_add_stop coll loc _ (by have := h2 key; rwa [hcoll] at this)
        · rw [if_neg hk]
          exact h2 k
      · dsimp only
        rw [dictGet_dictSet]
        by_cases hk : key = k
        · rw [if_pos hk]
          exact visitOk_add_stop coll loc _ (by have := h3 key; rwa [hcoll] at this) hdup
        · rw [if_neg hk]
          exact h3 k }

theorem ensure_pair_inv (tc : TripCollection) (key : Nat × Nat × Nat) (ctm : ℚ)
    (hInv : tc.Inv) : ((tc.ensure_key key ctm).ensure_time key.2.1).Inv := by
  obtain ⟨h1, h2, h3⟩ := hInv
  refine ⟨fun k h => ?_, fun k => ?_, fun k => ?_⟩
  · rw [ensure_time_vc] at h
    rcases ensure_key_isSome_of tc key ctm k h with hold | hkey
    · have := h1 k hold
      have h4 : (dictGet (tc.ensure_key key ctm).total_times k.2.1).isSome = true := by
        rw [ensure_key_total_times]; exact this
      exact ensure_time_isSome_mono _ _ _ h4
    · subst hkey
      exact ensure_time_isSome_self _ _
  · rw [ensure_time_vc]
    rcases ensure_key_get tc key ctm k with hold | hnew
    · rw [hold]; exact h2 k
    · rw [hnew]; exact newCollectionData_cumOk _ _ _ _ _
  · rw [ensure_time_vc]
    rcases ensure_key_get tc key ctm k with hold | hnew
    · rw [hold]; exact h3 k
    · rw [hnew]; exact newCollectionData_visitOk _ _ _ _ _

theorem register_inv (tc : TripCollection) (dist : Coord → Coord → ℚ)
    (vehicle_id day trip_number : Nat) (location : Location)
    (depot_location : Option Coord) (collection_time_minutes : ℚ)
    (hInv : tc.Inv) :
    ((tc.register_collection dist vehicle_id day trip_number location depot_location
      collection_time_minutes).1).Inv := by
  unfold TripCollection.register_collection
  by_cases hex : tc.exceeds_daily_time day = true
  · simp only [hex, if_true]
    exact hInv
  · simp only [hex, if_false]
    have hInv2 := ensure_pair_inv tc (vehicle_id, day, trip_number) collection_time_minutes hInv
    cases hcoll : dictGet ((tc.ensure_key (vehicle_id, day, trip_number)
        collection_time_minutes).ensure_time day).vehicle_collections
        (vehicle_id, day, trip_number) with
    | none => simp only [hcoll]; exact hInv2
    | some coll =>
      simp only [hcoll]
      exact register_core_inv _ dist _ coll _ _ _ hInv2 hcoll

theorem clear_inv (tc : TripCollection) (day : Nat) (hInv : tc.Inv) :
    (tc.clear_total_time day).Inv := by
  obtain ⟨h1, h2, h3⟩ := hInv
  unfold TripCollection.clear_total_time
  refine ⟨fun k h => ?_, fun k => ?_, fun k => ?_⟩
  · dsimp only at h ⊢
    have h5 := h1 k h
    split
    · exact dictGet_dictSet_isSome _ _ _ _ h5
    · exact h5
  · exact h2 k
  · exact h3 k

theorem init_inv (speed_kph max_daily_time : ℚ) :
    (TripCollection.init speed_kph max_daily_time).Inv := by
  refine ⟨fun k h => ?_, fun k => ?_, fun k => ?_⟩
  · simp [TripCollection.init, dictGet] at h
  · simp [TripCollection.init, dictGet, cumOk]
  · simp [TripCollection.init, dictGet, visitOk]

theorem reachable_inv (tc : TripCollection) (h : tc.Reachable) : tc.Inv := by
  induction h with
  | init speed maxd => exact init_inv speed maxd
  | register tc2 dist v d t loc dep ctm _ ih => exact register_inv tc2 dist v d t loc dep ctm ih
  | clear tc2 d _ ih => exact clear_inv tc2 d ih

theorem routeLocs_append_none (r : List (Option Location)) :
    routeLocs (r ++ [none]) = routeLocs r := by
  simp [routeLocs]

theorem routeLocs_append_some (r : List (Option Location)) (l : Location) :
    routeLocs (r ++ [some l]) = routeLocs r ++ [l] := by
  simp [routeLocs]

theorem routeLocs_closeRoute (r : List (Option Location)) :
    routeLocs (closeRoute r) = routeLocs r := by
  unfold closeRoute
  split
  · rfl
  · exact routeLocs_append_none r

theorem findBest_mem (dist : Coord → Coord → ℚ) (rc : ℚ) (pos : Coord) :
    ∀ (l : List Location) (i : Nat) (loc : Location),
      findBest dist rc pos l = some (i, loc) → loc ∈ l ∧ i < l.length := by
  intro l
  induction l with
  | nil => intro i loc h; simp [findBest] at h
  | cons x rest ih =>
    intro i loc h
    unfold findBest at h
    by_cases hw : rc < x.wco_amount
    · rw [if_pos hw] at h
      cases hfb : findBest dist rc pos rest with
      | none => rw [hfb] at h; simp at h
      | some p =>
        obtain ⟨j, bl⟩ := p
        rw [hfb] at h
        dsimp only [Option.map] at h
        cases h
        have := ih j loc hfb
        exact ⟨List.mem_cons_of_mem _ this.1, by simpa using Nat.succ_lt_succ this.2⟩
    · rw [if_neg hw] at h
      cases hfb : findBest dist rc pos rest with
      | none =>
        rw [hfb] at h
        cases h
        exact ⟨List.mem_cons_self _ _, by simp⟩
      | some p =>
        rw [hfb] at h
        obtain ⟨j, bl⟩ := p
        dsimp only at h
        by_cases hd : dist pos x.coordinates ≤ dist pos bl.coordinates
        · rw [if_pos hd] at h
          cases h
          exact ⟨List.mem_cons_self _ _, by simp⟩
        · rw [if_neg hd] at h
          cases h
          have := ih j loc hfb
          exact ⟨List.mem_cons_of_mem _ this.1, by simpa using Nat.succ_lt_succ this.2⟩

theorem findBest_isSome (dist : Coord → Coord → ℚ) (rc : ℚ) (pos : Coord) :
    ∀ (l : List Location), (∃ loc ∈ l, loc.wco_amount ≤ rc) →
      (findBest dist rc pos l).isSome = true := by
  intro l
  induction l with
  | nil => intro h; simp at h
  | cons x rest ih =>
    intro h
    unfold findBest
    by_cases hw : rc < x.wco_amount
    · rw [if_pos hw]
      obtain ⟨loc, hmem, hle⟩ := h
      rcases List.mem_cons.1 hmem with heq | hmem2
      · subst heq; exact absurd hw (not_lt.2 hle)
      · have := ih ⟨loc, hmem2, hle⟩
        cases hfb : findBest dist rc pos rest with
        | none => rw [hfb] at this; simp at this
        | some p => simp [hfb]
    · rw [if_neg hw]
      cases hfb : findBest dist rc pos rest with
      | none => simp
      | some p =>
        obtain ⟨j, bl⟩ := p
        by_cases hd : dist pos x.coordinates ≤ dist pos bl.coordinates <;> simp [hd]

theorem buildRouteLoop_subset (dist : Coord → Coord → ℚ) (cap : ℚ) (depot : Coord) :
    ∀ (fuel : Nat) (avail : List Location) (rc : ℚ) (pos : Coord)
      (route r : List (Option Location)),
      buildRouteLoop dist cap depot fuel avail rc pos route = some r →
      ∀ loc ∈ routeLocs r, loc ∈ routeLocs route ∨ loc ∈ avail := by
  intro fuel
  induction fuel with
  | zero =>
    intro avail rc pos route r h loc hl
    unfold buildRouteLoop at h
    by_cases ha : avail = []
    · rw [if_pos ha] at h
      cases h
      rw [routeLocs_closeRoute] at hl
      exact Or.inl hl
    · rw [if_neg ha] at h
      exact Option.noConfusion h
  | succ f ih =>
    intro avail rc pos route r h loc hl
    unfold buildRouteLoop at h
    by_cases ha : avail = []
    · rw [if_pos ha] at h
      cases h
      rw [routeLocs_closeRoute] at hl
      exact Or.inl hl
    · rw [if_neg ha] at h
      cases hfb : findBest dist rc pos avail with
      | none =>
        rw [hfb] at h
        rcases ih avail cap depot (route ++ [none]) r h loc hl with h1 | h2
        · rw [routeLocs_append_none] at h1
          exact Or.inl h1
        · exact Or.inr h2
      | some p =>
        obtain ⟨i, best⟩ := p
        rw [hfb] at h
        dsimp only at h
        have hbm := findBest_mem dist rc pos avail i best hfb
        by_cases hrem : rc - best.wco_amount < 100
        · rw [if_pos hrem] at h
          rcases ih _ _ _ _ r h loc hl with h1 | h2
          · rw [routeLocs_append_none, routeLocs_append_some] at h1
            rcases List.mem_append.1 h1 with h3 | h3
            · exact Or.inl h3
            · right
              rw [List.mem_singleton] at h3
              subst h3
              exact hbm.1
          · exact Or.inr (List.eraseIdx_subset _ _ h2)
        · rw [if_neg hrem] at h
          rcases ih _ _ _ _ r h loc hl with h1 | h2
          · rw [routeLocs_append_some] at h1
            rcases List.mem_append.1 h1 with h3 | h3
            · exact Or.inl h3
            · right
              rw [List.mem_singleton] at h3
              subst h3
              exact hbm.1
          · exact Or.inr (List.eraseIdx_subset _ _ h2)

theorem buildRouteLoop_isSome (dist : Coord → Coord → ℚ) (cap : ℚ) (depot : Coord) :
    ∀ (n : Nat) (avail : List Location), avail.length = n →
      (∀ l ∈ avail, l.wco_amount ≤ cap) →
      ∀ (rc : ℚ) (pos : Coord) (route : List (Option Location)) (fuel : Nat),
        2 * n + 1 ≤ fuel →
        (buildRouteLoop dist cap depot fuel avail rc pos route).isSome = true := by
  intro n
  induction n using Nat.strong_induction_on with
  | _ n ih =>
    intro avail hlen hcap rc pos route fuel hfuel
    by_cases ha : avail = []
    · cases fuel with
      | zero => unfold buildRouteLoop; simp [ha]
      | succ f => unfold buildRouteLoop; simp [ha]
    · have hn : 0 < n := hlen ▸ List.length_pos.2 ha
      obtain ⟨f, rfl⟩ : ∃ f, fuel = f + 1 := ⟨fuel - 1, by omega⟩
      unfold buildRouteLoop
      rw [if_neg ha]
      cases hfb : findBest dist rc pos avail with
      | some p =>
        obtain ⟨i, best⟩ := p
        dsimp only
        have hbm := findBest_mem dist rc pos avail i best hfb
        have hlen1 : (avail.eraseIdx i).length = n - 1 := by
          rw [List.length_eraseIdx, if_pos hbm.2, hlen]
        have hcap1 : ∀ l ∈ avail.eraseIdx i, l.wco_amount ≤ cap :=
          fun l hm => hcap l (List.eraseIdx_subset _ _ hm)
        by_cases hrem : rc - best.wco_amount < 100
        · rw [if_pos hrem]
          exact ih (n - 1) (by omega) _ hlen1 hcap1 _ _ _ f (by omega)
        · rw [if_neg hrem]
          exact ih (n - 1) (by omega) _ hlen1 hcap1 _ _ _ f (by omega)
      | none =>
        obtain ⟨g, rfl⟩ : ∃ g, f = g + 1 := ⟨f - 1, by omega⟩
        unfold buildRouteLoop
        rw [if_neg ha]
        cases hfb2 : findBest dist cap depot avail with
        | none =>
          have hsome : (findBest dist cap depot avail).isSome = true := by
            apply findBest_isSome
            obtain ⟨x, hx⟩ := List.exists_mem_of_ne_nil avail ha
            exact ⟨x, hx, hcap x hx⟩
          rw [hfb2] at hsome
          simp at hsome
        | some p =>
          obtain ⟨i, best⟩ := p
          dsimp only
          have hbm := findBest_mem dist cap depot avail i best hfb2
          have hlen1 : (avail.eraseIdx i).length = n - 1 := by
            rw [List.length_eraseIdx, if_pos hbm.2, hlen]
          have hcap1 : ∀ l ∈ avail.eraseIdx i, l.wco_amount ≤ cap :=
            fun l hm => hcap l (List.eraseIdx_subset _ _ hm)
          by_cases hrem : cap - best.wco_amount < 100
          · rw [if_pos hrem]
            exact ih (n - 1) (by omega) _ hlen1 hcap1 _ _ _ g (by omega)
          · rw [if_neg hrem]
            exact ih (n - 1) (by omega) _ hlen1 hcap1 _ _ _ g (by omega)

theorem listMapOption_isSome {α β : Type} (f : α → Option β) :
    ∀ (l : List α), (∀ x ∈ l, (f x).isSome = true) →
      (listMapOption f l).isSome = true := by
  intro l
  induction l with
  | nil => intro _; simp [listMapOption]
  | cons x xs ih =>
    intro h
    unfold listMapOption
    cases hx : f x with
    | none =>
      have := h x (List.mem_cons_self _ _)
      rw [hx] at this
      simp at this
    | some y =>
      cases hxs : listMapOption f xs with
      | none =>
        have := ih (fun z hz => h z (List.mem_cons_of_mem _ hz))
        rw [hxs] at this
        simp at this
      | some ys => simp

theorem listMapOption_mem {α β : Type} (f : α → Option β) :
    ∀ (l : List α) (ys : List β), listMapOption f l = some ys →
      ∀ y ∈ ys, ∃ x ∈ l, f x = some y := by
  intro l
  induction l with
  | nil =>
    intro ys h y hy
    unfold listMapOption at h
    cases h
    simp at hy
  | cons x xs ih =>
    intro ys h y hy
    unfold listMapOption at h
    cases hx : f x with
    | none => rw [hx] at h; exact Option.noConfusion h
    | some z =>
      rw [hx] at h
      cases hxs : listMapOption f xs with
      | none => rw [hxs] at h; exact Option.noConfusion h
      | some zs =>
        rw [hxs] at h
        cases h
        rcases List.mem_cons.1 hy with h1 | h1
        · exact ⟨x, List.mem_cons_self _ _, by rw [hx, h1]⟩
        · obtain ⟨w, hw1, hw2⟩ := ih zs hxs y h1
          exact ⟨w, List.mem_cons_of_mem _ hw1, hw2⟩

theorem nnScanStep_routeLocs (dist : Coord → Coord → ℚ) (cap : ℚ) (depot : Coord)
    (s : NNScanState) (loc : Location) :
    routeLocs (nnScanStep dist cap depot s loc).route = routeLocs s.route := by
  unfold nnScanStep
  by_cases h1 : cap < s.current_load + loc.wco_amount
  · rw [if_pos h1]
    by_cases h2 : s.current_pos ≠ depot
    · rw [if_pos h2]
      exact routeLocs_append_none s.route
    · rw [if_neg h2]
  · rw [if_neg h1]

theorem nnScanStep_best (dist : Coord → Coord → ℚ) (cap : ℚ) (depot : Coord)
    (s : NNScanState) (loc : Location) :
    (nnScanStep dist cap depot s loc).best = s.best ∨
      ∃ d, (nnScanStep dist cap depot s loc).best = some (loc, d) := by
  unfold nnScanStep
  by_cases h1 : cap < s.current_load + loc.wco_amount
  · rw [if_pos h1]
    by_cases h2 : s.current_pos ≠ depot
    · rw [if_pos h2]
      dsimp only
      split
      · right; exact ⟨_, rfl⟩
      · rename_i b bd heq
        split
        · right; exact ⟨_, rfl⟩
        · left; exact heq.symm
    · rw [if_neg h2]
      dsimp only
      split
      · right; exact ⟨_, rfl⟩
      · rename_i b bd heq
        split
        · right; exact ⟨_, rfl⟩
        · left; exact heq.symm
  · rw [if_neg h1]
    dsimp only
    split
    · right; exact ⟨_, rfl⟩
    · rename_i b bd heq
      split
      · right; exact ⟨_, rfl⟩
      · left; exact heq.symm

theorem nnScan_fold_routeLocs (dist : Coord → Coord → ℚ) (cap : ℚ) (depot : Coord) :
    ∀ (l : List Location) (s : NNScanState),
      routeLocs (l.foldl (nnScanStep dist cap depot) s).route = routeLocs s.route := by
  intro l
  induction l with
  | nil => intro s; rfl
  | cons x xs ih =>
    intro s
    rw [List.foldl_cons, ih, nnScanStep_routeLocs]

theorem nnScan_fold_best (dist : Coord → Coord → ℚ) (cap : ℚ) (depot : Coord) :
    ∀ (l : List Location) (s : NNScanState) (b : Location) (d : ℚ),
      (l.foldl (nnScanStep dist cap depot) s).best = some (b, d) →
      (∃ d0, s.best = some (b, d0)) ∨ b ∈ l := by
  intro l
  induction l with
  | nil => intro s b d h; exact Or.inl ⟨d, h⟩
  | cons x xs ih =>
    intro s b d h
    rw [List.foldl_cons] at h
    rcases ih _ b d h with ⟨d0, h2⟩ | h2
    · rcases nnScanStep_best dist cap depot s x with h3 | ⟨d1, h3⟩
      · rw [h3] at h2
        exact Or.inl ⟨d0, h2⟩
      · rw [h3] at h2
        have hb : (x, d1) = (b, d0) := Option.some.inj h2
        right
        rw [List.mem_cons]
        left
        exact (congrArg Prod.fst hb).symm
    · exact Or.inr (List.mem_cons_of_mem _ h2)

theorem nnLoop_subset (dist : Coord → Coord → ℚ) (cap : ℚ) (depot : Coord) :
    ∀ (fuel : Nat) (remaining : List Location) (route : List (Option Location))
      (load : ℚ) (pos : Coord),
      ∀ loc ∈ routeLocs (nnLoop dist cap depot fuel remaining route load pos),
        loc ∈ routeLocs route ∨ loc ∈ remaining := by
  intro fuel
  induction fuel with
  | zero => intro remaining route load pos loc h; exact Or.inl h
  | succ f ih =>
    intro remaining route load pos loc h
    unfold nnLoop at h
    by_cases hr : remaining = []
    · rw [if_pos hr] at h
      exact Or.inl h
    · rw [if_neg hr] at h
      dsimp only at h
      set s := remaining.foldl (nnScanStep dist cap depot)
        { route := route, current_load := load, current_pos := pos, best := none } with hs
      cases hb : s.best with
      | none =>
        rw [hb] at h
        rw [hs, nnScan_fold_routeLocs] at h
        exact Or.inl h
      | some p =>
        obtain ⟨b, d⟩ := p
        rw [hb] at h
        dsimp only at h
        have hbmem : b ∈ remaining := by
          rcases nnScan_fold_best dist cap depot remaining _ b d (hs ▸ hb) with ⟨d0, h2⟩ | h2
          · simp at h2
          · exact h2
        by_cases h9 : (9 / 10) * cap ≤ s.current_load + b.wco_amount
        · rw [if_pos h9] at h
          rcases ih _ _ _ _ loc h with h1 | h1
          · rw [routeLocs_append_none, routeLocs_append_some, hs, nnScan_fold_routeLocs] at h1
            rcases List.mem_append.1 h1 with h2 | h2
            · exact Or.inl h2
            · rw [List.mem_singleton] at h2
              subst h2
              exact Or.inr hbmem
          · exact Or.inr (List.erase_subset _ _ h1)
        · rw [if_neg h9] at h
          rcases ih _ _ _ _ loc h with h1 | h1
          · rw [routeLocs_append_some, hs, nnScan_fold_routeLocs] at h1
            rcases List.mem_append.1 h1 with h2 | h2
            · exact Or.inl h2
            · rw [List.mem_singleton] at h2
              subst h2
              exact Or.inr hbmem
          · exact Or.inr (List.erase_subset _ _ h1)

theorem routeLocs_sandwich (locations : List Location) :
    routeLocs ([none] ++ locations.map some ++ [none]) = locations := by
  unfold routeLocs
  simp [List.filterMap_append, List.filterMap_map]

theorem mem_solverOutputIds (routes : List (List (Option Location))) (x : String) :
    x ∈ solverOutputIds routes ↔ ∃ r ∈ routes, ∃ l ∈ routeLocs r, l.id = x := by
  unfold solverOutputIds
  simp [List.mem_flatten, List.mem_map]

theorem basic_solve_subset (locations : List Location) (vehicles : List Vehicle) :
    solverOutputIds (BasicSolver.solve locations vehicles) ⊆
      locations.map (fun l => l.id) := by
  intro x hx
  rw [mem_solverOutputIds] at hx
  obtain ⟨r, hr, l, hl, hid⟩ := hx
  unfold BasicSolver.solve at hr
  rw [List.mem_map] at hr
  obtain ⟨v, _, hv⟩ := hr
  rw [← hv, routeLocs_sandwich] at hl
  rw [List.mem_map]
  exact ⟨l, hl, hid⟩

theorem nn_solve_subset (dist : Coord → Coord → ℚ) (locations : List Location)
    (vehicles : List Vehicle) (depot : Coord) :
    solverOutputIds (NearestNeighborSolver.solve dist locations vehicles depot) ⊆
      locations.map (fun l => l.id) := by
  intro x hx
  rw [mem_solverOutputIds] at hx
  obtain ⟨r, hr, l, hl, hid⟩ := hx
  unfold NearestNeighborSolver.solve at hr
  rw [List.mem_map] at hr
  obtain ⟨v, _, hv⟩ := hr
  rw [← hv, routeLocs_closeRoute] at hl
  rcases nnLoop_subset dist v.capacity depot _ _ _ _ _ l hl with h1 | h1
  · simp [routeLocs] at h1
  · rw [List.mem_map]
    exact ⟨l, h1, hid⟩

theorem greedy_solve_subset (dist : Coord → Coord → ℚ) (locations : List Location)
    (vehicles : List Vehicle) (depot : Coord) (out : List (List (Option Location)))
    (h : GreedySolver.solve dist locations vehicles depot = some out) :
    solverOutputIds out ⊆ locations.map (fun l => l.id) := by
  intro x hx
  rw [mem_solverOutputIds] at hx
  obtain ⟨r, hr, l, hl, hid⟩ := hx
  unfold GreedySolver.solve at h
  obtain ⟨v, _, hv⟩ := listMapOption_mem _ _ _ h r hr
  unfold GreedySolver._build_route at hv
  rcases buildRouteLoop_subset dist v.capacity depot _ _ _ _ _ _ hv l hl with h1 | h1
  · simp [routeLocs] at h1
  · rw [List.mem_map]
    exact ⟨l, h1, hid⟩

theorem ortools_routes_mem (locations : List Location) :
    ∀ (sol : List (Option (List (Fin locations.length))))
      (r : List (Option Location)),
      r ∈ ORToolsSolver._process_solution locations sol →
      ∀ l ∈ routeLocs r, l ∈ locations := by
  intro sol
  induction sol with
  | nil => intro r hr; simp [ORToolsSolver._process_solution] at hr
  | cons vn rest ih =>
    intro r hr l hl
    unfold ORToolsSolver._process_solution at hr
    rw [List.foldr_cons] at hr
    cases vn with
    | none =>
      rcases List.mem_cons.1 hr with h1 | h1
      · subst h1; simp [routeLocs] at hl
      · exact ih r h1 l hl
    | some nodes =>
      dsimp only at hr
      split at hr
      · rcases List.mem_cons.1 hr with h1 | h1
        · subst h1
          unfold routeLocs at hl
          simp only [List.filterMap_append, List.filterMap_cons, List.filterMap_map,
            List.filterMap_nil, List.mem_append] at hl
          rcases hl with (hl | hl) | hl
          · simp at hl
          · rw [List.mem_filterMap] at hl
            obtain ⟨n, _, hn⟩ := hl
            have hget : locations.get n = l := by
              simpa using hn
            rw [← hget]
            exact locations.get_mem n.1 n.2
          · simp at hl
        · exact ih r h1 l hl
      · exact ih r hr l hl

theorem ortools_solve_subset (locations : List Location)
    (sol : List (Option (List (Fin locations.length)))) :
    solverOutputIds (ORToolsSolver._process_solution locations sol) ⊆
      locations.map (fun l => l.id) := by
  intro x hx
  rw [mem_solverOutputIds] at hx
  obtain ⟨r, hr, l, hl, hid⟩ := hx
  rw [List.mem_map]
  exact ⟨l, ortools_routes_mem locations sol r hr l hl, hid⟩

theorem sin_half_sub_sq (u v : ℝ) :
    Real.sin ((u - v) / 2) ^ 2 = Real.sin ((v - u) / 2) ^ 2 := by
  rw [show (u - v) / 2 = -((v - u) / 2) by ring, Real.sin_neg, neg_sq]

theorem calculate_distance_comm (a b : ℝ × ℝ) :
    calculate_distance a b = calculate_distance b a := by
  unfold calculate_distance
  dsimp only
  rw [sin_half_sub_sq (radians b.1) (radians a.1),
    sin_half_sub_sq (radians b.2) (radians a.2),
    mul_comm (Real.cos (radians a.1)) (Real.cos (radians b.1))]

theorem calculate_distance_self (a : ℝ × ℝ) : calculate_distance a a = 0 := by
  unfold calculate_distance
  dsimp only
  rw [sub_self, sub_self, zero_div, Real.sin_zero]
  norm_num
  unfold atan2
  rw [if_pos one_pos]
  rw [zero_div, Real.arctan_zero]

/-- C1 counterexample: a vehicle of capacity 100 still accepts two stops of
80 L each into the same trip; the ledger applies no capacity bound at all. -/
theorem c1_capacity_not_enforced_counterexample :
    vehicleEx.id = 0 ∧ vehicleEx.capacity = 100 ∧
      (exTC0.register_collection dist0 0 1 0 locA none 15).2 = true ∧
      (exTC1.register_collection dist0 0 1 0 locB none 15).2 = true ∧
      (dictGet exTC2.vehicle_collections (0, 1, 0)).map
        (fun c => (c.stops.map (fun s => s.amount_collected)).sum) = some 160 ∧
      ¬ ((160 : ℚ) ≤ vehicleEx.capacity) := by
  refine ⟨rfl, rfl, ?_, ?_, ?_, ?_⟩ <;> decide

/-- C1 (amended): in every ledger state reachable by register_collection and
clear_total_time calls, each stop's cumulative_load equals the prefix sum of
amount_collected within its trip; no capacity bound is enforced. -/
theorem c1_cumulative_load_prefix_sum (tc : TripCollection) (h : tc.Reachable) :
    ∀ k : Nat × Nat × Nat, cumOk (dictGet tc.vehicle_collections k) :=
  (reachable_inv tc h).2.1

/-- C1 witness: the prefix-sum property evaluated on the concrete two-stop
ledger. -/
theorem c1_cumulative_load_prefix_sum_witness :
    cumOk (dictGet exTC2.vehicle_collections (0, 1, 0)) :=
  c1_cumulative_load_prefix_sum exTC2
    (TripCollection.Reachable.register exTC1 dist0 0 1 0 locB none 15
      (TripCollection.Reachable.register exTC0 dist0 0 1 0 locA none 15
        (TripCollection.Reachable.init AVERAGE_SPEED_KPH MAX_DAILY_TIME)))
    (0, 1, 0)

/-- C2: code-bug evaluation.  With no depot and collection_time_minutes 500
the projected total time 500 exceeds max_daily_time 420, yet after the call
exceeds_daily_time returns false (line 110 of trip_collection.py assigns
False, not True), while the stop is appended and the call returns true. -/
theorem c2_time_breach_flag_eval :
    exTC0.max_daily_time <
        (dictGet exTC0.total_times 1).getD 0 +
          calculate_total_time (calculate_stop_times dist0 locA none none 500 exTC0.speed_kph none).1
            (calculate_stop_times dist0 locA none none 500 exTC0.speed_kph none).2.1
            (calculate_stop_times dist0 locA none none 500 exTC0.speed_kph none).2.2 ∧
      (exTC0.register_collection dist0 0 1 0 locA none 500).2 = true ∧
      (dictGet (exTC0.register_collection dist0 0 1 0 locA none 500).1.vehicle_collections
        (0, 1, 0)).map (fun c => c.stops.length) = some 1 ∧
      (exTC0.register_collection dist0 0 1 0 locA none 500).1.exceeds_daily_time 1 = false := by
  refine ⟨?_, ?_, ?_, ?_⟩ <;> decide

/-- C3 counterexample: the same location is accepted on two different trips of
the same vehicle and day, so it appears in two CollectionData with day 1. -/
theorem c3_cross_trip_duplicate_counterexample :
    (exTC1.register_collection dist0 0 1 1 locA none 15).2 = true ∧
      (dictGet exTC3.vehicle_collections (0, 1, 0)).map
        (fun c => decide ("A" ∈ c.visited_location_ids)) = some true ∧
      (dictGet exTC3.vehicle_collections (0, 1, 1)).map
        (fun c => decide ("A" ∈ c.visited_location_ids)) = some true ∧
      ((0, 1, 0) : Nat × Nat × Nat) ≠ (0, 1, 1) := by
  refine ⟨?_, ?_, ?_, ?_⟩ <;> decide

/-- C3 (amended): the duplicate check of register_collection is per
(vehicle, day, trip) key only: within each single CollectionData no location
id repeats, and visited_location_ids matches the stops; duplicates across
trips or vehicles on the same day are not prevented. -/
theorem c3_nodup_within_collection (tc : TripCollection) (h : tc.Reachable) :
    ∀ k : Nat × Nat × Nat, visitOk (dictGet tc.vehicle_collections k) :=
  (reachable_inv tc h).2.2

/-- C3 witness: the per-trip no-duplicate property evaluated on a concrete
ledger holding A on two trips. -/
theorem c3_nodup_within_collection_witness :
    visitOk (dictGet exTC3.vehicle_collections (0, 1, 1)) :=
  c3_nodup_within_collection exTC3
    (TripCollection.Reachable.register exTC1 dist0 0 1 1 locA none 15
      (TripCollection.Reachable.register exTC0 dist0 0 1 0 locA none 15
        (TripCollection.Reachable.init AVERAGE_SPEED_KPH MAX_DAILY_TIME)))
    (0, 1, 1)

/-- C4: code-bug evaluation.  The second assignment pass embedded from
collection_scheduler.py lines 235-263 takes no force_assign input and runs
whenever locations are unassigned: here six locations (more than the claimed
threshold of 5) are all assigned to the first fitting vehicle. -/
theorem c4_second_pass_runs_unconditionally_eval :
    sixLocs.length = 6 ∧ ¬ (sixLocs.length ≤ 5) ∧
      exAssignRun.still_unassigned = [] ∧
      (exAssignRun.assignments.getD 0 []).length = 6 ∧
      exAssignRun.vehicle_loads = [60] := by
  refine ⟨?_, ?_, ?_, ?_, ?_⟩ <;> decide

/-- C5 counterexample: location A is already registered for vehicle 0 on
day 1 (trip 0), yet registering it again for the same vehicle and day under
trip 1 returns true and changes the ledger. -/
theorem c5_second_trip_reregistration_counterexample :
    (dictGet exTC1.vehicle_collections (0, 1, 0)).map
        (fun c => decide ("A" ∈ c.visited_location_ids)) = some true ∧
      (exTC1.register_collection dist0 0 1 1 locA none 15).2 = true ∧
      (exTC1.register_collection dist0 0 1 1 locA none 15).1 ≠ exTC1 := by
  refine ⟨?_, ?_, ?_⟩ <;> decide

/-- C5 (amended): re-registering a location id already visited under the same
(vehicle, day, trip) key returns false and leaves the ledger exactly
unchanged. -/
theorem c5_duplicate_same_key_noop (tc : TripCollection) (dist : Coord → Coord → ℚ)
    (v d t : Nat) (loc : Location) (dep : Option Coord) (ctm : ℚ) (c : CollectionData)
    (h1 : tc.Reachable) (h2 : dictGet tc.vehicle_collections (v, d, t) = some c)
    (h3 : loc.id ∈ c.visited_location_ids) :
    tc.register_collection dist v d t loc dep ctm = (tc, false) := by
  have hInv := reachable_inv tc h1
  unfold TripCollection.register_collection
  by_cases hex : tc.exceeds_daily_time d = true
  · rw [if_pos hex]
  · rw [if_neg hex]
    have htt : (dictGet tc.total_times d).isSome = true :=
      hInv.1 (v, d, t) (by rw [h2]; rfl)
    have hk : tc.ensure_key (v, d, t) ctm = tc :=
      ensure_key_noop _ _ _ (by rw [h2]; rfl)
    have ht : tc.ensure_time d = tc := ensure_time_noop _ _ htt
    simp only [hk, ht, h2]
    unfold TripCollection.register_core
    rw [if_pos h3]

/-- C5 witness: the duplicate call on the concrete one-stop ledger returns
false with the ledger unchanged. -/
theorem c5_duplicate_same_key_noop_witness :
    exTC1.register_collection dist0 0 1 0 locA none 15 = (exTC1, false) :=
  c5_duplicate_same_key_noop exTC1 dist0 0 1 0 locA none 15 exCA1
    (TripCollection.Reachable.register exTC0 dist0 0 1 0 locA none 15
      (TripCollection.Reachable.init AVERAGE_SPEED_KPH MAX_DAILY_TIME))
    (by decide) (by decide)

/-- C6: solver non-expansion for the whole family: the ids of the non-null
locations in the returned routes are a subset of the input ids, for the
basic, nearest-neighbor, greedy (whenever it terminates) and OR-Tools-style
solvers. -/
theorem c6_solver_non_expansion :
    (∀ (locations : List Location) (vehicles : List Vehicle),
        solverOutputIds (BasicSolver.solve locations vehicles) ⊆
          locations.map (fun l => l.id)) ∧
      (∀ (dist : Coord → Coord → ℚ) (locations : List Location) (vehicles : List Vehicle)
          (depot : Coord),
        solverOutputIds (NearestNeighborSolver.solve dist locations vehicles depot) ⊆
          locations.map (fun l => l.id)) ∧
      (∀ (dist : Coord → Coord → ℚ) (locations : List Location) (vehicles : List Vehicle)
          (depot : Coord) (out : List (List (Option Location))),
        GreedySolver.solve dist locations vehicles depot = some out →
          solverOutputIds out ⊆ locations.map (fun l => l.id)) ∧
      (∀ (locations : List Location) (sol : List (Option (List (Fin locations.length)))),
        solverOutputIds (ORToolsSolver._process_solution locations sol) ⊆
          locations.map (fun l => l.id)) :=
  ⟨basic_solve_subset, nn_solve_subset, greedy_solve_subset, ortools_solve_subset⟩

/-- C7 counterexample: for a registry already holding the id, the pair of
adds leaves the length unchanged instead of increasing it by one. -/
theorem c7_add_existing_id_counterexample :
    regA._all_locations.length = 1 ∧
      ((regA.add locA).add locA)._all_locations.length = 1 ∧
      ¬ (((regA.add locA).add locA)._all_locations.length =
        regA._all_locations.length + 1) := by
  refine ⟨?_, ?_, ?_⟩ <;> decide

/-- C7 (amended): for a location whose id is not yet present, adding it and
then adding any location with the same id grows the registry by exactly one,
and the second add changes nothing. -/
theorem c7_add_idempotent_on_new_id (r : LocationRegistry) (l l2 : Location)
    (h1 : l.id ∉ r._location_ids) (h2 : l2.id = l.id) :
    ((r.add l).add l2)._all_locations.length = r._all_locations.length + 1 ∧
      (r.add l).add l2 = r.add l := by
  have hadd : r.add l =
      { _all_locations := r._all_locations ++ [l]
        _location_ids := r._location_ids ++ [l.id]
        _coordinates_map := defaultdictAppend r._coordinates_map l.coordinates l.id
        _location_names := r._location_names ++ [l.name]
        _name_indices := defaultdictAppend r._name_indices l.name r._all_locations.length } := by
    unfold LocationRegistry.add
    rw [if_neg h1]
  have hmem : l2.id ∈ (r.add l)._location_ids := by
    rw [hadd, h2]
    simp
  have haux : ∀ (r2 : LocationRegistry) (x : Location),
      x.id ∈ r2._location_ids → r2.add x = r2 := by
    intro r2 x hx
    unfold LocationRegistry.add
    rw [if_pos hx]
  have hsecond : (r.add l).add l2 = r.add l := haux _ _ hmem
  refine ⟨?_, hsecond⟩
  rw [hsecond, hadd]
  simp

/-- C7 witness: the amended statement evaluated at the empty registry and
location A added twice. -/
theorem c7_add_idempotent_on_new_id_witness :
    ((LocationRegistry.empty.add locA).add locA)._all_locations.length =
        LocationRegistry.empty._all_locations.length + 1 ∧
      (LocationRegistry.empty.add locA).add locA = LocationRegistry.empty.add locA :=
  c7_add_idempotent_on_new_id LocationRegistry.empty locA locA (by decide) rfl

/-- C8: the haversine distance is symmetric (hence equal within any
tolerance, in particular 1e-9) and the self-distance is exactly 0, in the
real-number model of the float arithmetic. -/
theorem c8_distance_symm_and_self_zero (a b : ℝ × ℝ) :
    calculate_distance a b = calculate_distance b a ∧
      |calculate_distance a b - calculate_distance b a| ≤ 1 / 1000000000 ∧
      calculate_distance a a = 0 := by
  refine ⟨calculate_distance_comm a b, ?_, calculate_distance_self a⟩
  rw [calculate_distance_comm a b, sub_self, abs_zero]
  norm_num

/-- C9: code-bug evaluation.  remove pops _location_names twice: removing the
only location raises IndexError (modelled as none), and in a registry of two
same-named locations remove succeeds but leaves _location_names two entries
shorter than _all_locations, breaking the parallel-index invariant. -/
theorem c9_remove_breaks_indexes_eval :
    regA.remove locA = none ∧
      (regN.remove locN1).map
        (fun r => (r._all_locations.length, r._location_ids.length,
          r._location_names.length)) = some (1, 1, 0) := by
  refine ⟨?_, ?_⟩ <;> decide

/-- C10: GreedySolver.solve terminates whenever every location fits every
vehicle at full capacity: each loop iteration then removes a location (or the
immediately following one does, after a depot reset), which the fuel bound
2·n+1 captures. -/
theorem c10_greedy_solve_terminates (dist : Coord → Coord → ℚ)
    (locations : List Location) (vehicles : List Vehicle) (depot : Coord)
    (h : ∀ l ∈ locations, ∀ v ∈ vehicles, l.wco_amount ≤ v.capacity) :
    (GreedySolver.solve dist locations vehicles depot).isSome = true := by
  unfold GreedySolver.solve
  apply listMapOption_isSome
  intro v hv
  unfold GreedySolver._build_route
  exact buildRouteLoop_isSome dist v.capacity depot locations.length locations rfl
    (fun l hl => h l hl v hv) v.capacity depot [none] (2 * locations.length + 1) (le_refl _)

/-- C10 witness: the solver evaluated on two 80 L locations and a 100 L
vehicle returns a result. -/
theorem c10_greedy_solve_terminates_witness :
    (GreedySolver.solve dist0 [locA, locB] [vehicleEx] (0, 0)).isSome = true :=
  c10_greedy_solve_terminates dist0 [locA, locB] [vehicleEx] (0, 0) (by decide)
